import Mathlib

/-!
Verification development for the vector modeling and goal-progress engine
of the official_coach repository.

The relevant source modules are shallowly embedded below:

* `backend/engines/scalars.py`   — `compute_influence_scalars` (rational arithmetic);
* `backend/engines/base_vector.py` — `normalize`, `weighted_similarity` (real arithmetic,
  Euclidean norms);
* `backend/engines/target_vector.py` — `_apply_goal_adjustments`,
  `_calculate_milestone_vectors`, `initialize_target_vector`, the progress-ratio /
  status fragment and the per-dimension progress loop of `calculate_goal_progress`,
  and `archive_completed_goals`;
* `backend/engines/user_vector.py` — the percent-change computation of
  `analyze_vector_trends`.

Database reads and writes are passed in as explicit values (the row that a
lookup would return, the id that an insert would produce); Python floats are
modeled as rationals where the code only performs field operations, and as
reals where it calls `exp`, `**` with a fractional exponent, or `sqrt`.
Python's built-in `round` (round-half-to-even on exact ties) is modeled by
`roundHalfEven` / `pyRound` below.
-/

/-- Python's `round` to an integer: round half to even on exact ties
(`round(0.5) == 0`, `round(1.5) == 2`), nearest integer otherwise. -/
def roundHalfEven {α : Type} [LinearOrderedField α] [FloorRing α] [DecidableEq α]
    (y : α) : ℤ :=
  if Int.fract y = 1/2 then (if Even ⌊y⌋ then ⌊y⌋ else ⌊y⌋ + 1) else ⌊y + 1/2⌋

/-- Python's `round(x, n)` for `n` decimal digits. -/
def pyRound {α : Type} [LinearOrderedField α] [FloorRing α] [DecidableEq α]
    (x : α) (n : ℕ) : α :=
  (roundHalfEven (x * 10 ^ n) : α) / 10 ^ n

theorem roundHalfEven_le {α : Type} [LinearOrderedField α] [FloorRing α] [DecidableEq α]
    (y : α) : (roundHalfEven y : α) ≤ y + 1/2 := by
  unfold roundHalfEven
  split
  · rename_i h
    have hy : y = (⌊y⌋ : α) + 1/2 := by
      have := Int.fract_add_floor y
      rw [Int.fract] at h
      linarith
    split
    · linarith
    · push_cast; linarith
  · exact Int.floor_le (y + 1/2)

theorem le_roundHalfEven {α : Type} [LinearOrderedField α] [FloorRing α] [DecidableEq α]
    (y : α) : y - 1/2 ≤ (roundHalfEven y : α) := by
  unfold roundHalfEven
  split
  · rename_i h
    have hy : y = (⌊y⌋ : α) + 1/2 := by
      rw [Int.fract] at h
      linarith
    split
    · linarith
    · push_cast; linarith
  · have := Int.lt_floor_add_one (y + 1/2)
    push_cast at this ⊢
    linarith

theorem roundHalfEven_mono {α : Type} [LinearOrderedField α] [FloorRing α] [DecidableEq α]
    {y z : α} (h : y ≤ z) : roundHalfEven y ≤ roundHalfEven z := by
  by_contra hc
  push_neg at hc
  have h3 : roundHalfEven z + 1 ≤ roundHalfEven y := Int.add_one_le_iff.mpr hc
  have h3' : (roundHalfEven z : α) + 1 ≤ (roundHalfEven y : α) := by exact_mod_cast h3
  have h1 : (roundHalfEven y : α) ≤ y + 1/2 := roundHalfEven_le y
  have h2 : z - 1/2 ≤ (roundHalfEven z : α) := le_roundHalfEven z
  have hzy : z ≤ y := by linarith
  have hyz : y = z := le_antisymm h hzy
  subst hyz
  omega

theorem roundHalfEven_nonneg {α : Type} [LinearOrderedField α] [FloorRing α] [DecidableEq α]
    {y : α} (h : 0 ≤ y) : 0 ≤ roundHalfEven y := by
  by_contra hc
  push_neg at hc
  have h1 : roundHalfEven y ≤ -1 := by omega
  have h2 : (roundHalfEven y : α) ≤ -1 := by exact_mod_cast h1
  have h3 := le_roundHalfEven y
  linarith

theorem roundHalfEven_le_int {α : Type} [LinearOrderedField α] [FloorRing α] [DecidableEq α]
    {y : α} {n : ℤ} (h : y ≤ n) : roundHalfEven y ≤ n := by
  by_contra hc
  push_neg at hc
  have h1 : n + 1 ≤ roundHalfEven y := Int.add_one_le_iff.mpr hc
  have h2 : (n : α) + 1 ≤ (roundHalfEven y : α) := by exact_mod_cast h1
  have h3 := roundHalfEven_le y
  linarith

theorem pyRound_mono {α : Type} [LinearOrderedField α] [FloorRing α] [DecidableEq α]
    {x y : α} (n : ℕ) (h : x ≤ y) : pyRound x n ≤ pyRound y n := by
  unfold pyRound
  have hp : (0:α) < 10 ^ n := by positivity
  have h1 : x * 10 ^ n ≤ y * 10 ^ n := by
    exact mul_le_mul_of_nonneg_right h (le_of_lt hp)
  have h2 := roundHalfEven_mono h1
  have h3 : ((roundHalfEven (x * 10 ^ n) : ℤ) : α) ≤ ((roundHalfEven (y * 10 ^ n) : ℤ) : α) := by
    exact_mod_cast h2
  gcongr

theorem pyRound_nonneg {α : Type} [LinearOrderedField α] [FloorRing α] [DecidableEq α]
    {x : α} (n : ℕ) (h : 0 ≤ x) : 0 ≤ pyRound x n := by
  unfold pyRound
  have hp : (0:α) < 10 ^ n := by positivity
  have h1 : (0:α) ≤ x * 10 ^ n := by positivity
  have h2 := roundHalfEven_nonneg h1
  have h3 : (0:α) ≤ (roundHalfEven (x * 10 ^ n) : α) := by exact_mod_cast h2
  positivity

theorem pyRound_le_one {α : Type} [LinearOrderedField α] [FloorRing α] [DecidableEq α]
    {x : α} (n : ℕ) (h : x ≤ 1) : pyRound x n ≤ 1 := by
  unfold pyRound
  have hp : (0:α) < 10 ^ n := by positivity
  have h1 : x * 10 ^ n ≤ ((10 ^ n : ℤ) : α) := by
    push_cast
    nlinarith
  have h2 := roundHalfEven_le_int h1
  have h3 : ((roundHalfEven (x * 10 ^ n) : ℤ) : α) ≤ ((10 ^ n : ℤ) : α) := by exact_mod_cast h2
  rw [div_le_one hp]
  push_cast at h3 ⊢
  linarith

/-! ### Influence scalar computer (`backend/engines/scalars.py`, `compute_influence_scalars`) -/

/-- Raw strength metrics as returned by `get_strength_metrics`. -/
structure StrengthMetrics where
  combined_strength : ℚ
  total_volume : ℚ
  volume_percentile : ℚ

/-- Raw conditioning metrics as returned by `get_conditioning_metrics`.
`training_days` is a day count in the source; it is carried as a rational
because the source divides it. -/
structure ConditioningMetrics where
  weekly_volume : ℚ
  training_days : ℚ
  volume_change_pct : ℚ
  intensity_avg : ℚ
  consistency_pct : ℚ

/-- The weight table of `compute_influence_scalars`, one field per key of the
source's `weights` dict. -/
structure ScalarWeights where
  combined_strength : ℚ
  total_volume : ℚ
  volume_percentile : ℚ
  weekly_volume : ℚ
  training_days : ℚ
  volume_change_pct : ℚ
  intensity_avg : ℚ
  consistency_pct : ℚ

/-- The default weight table (0.3, 0.2, 0.1, 0.15, 0.1, 0.05, 0.05, 0.05). -/
def default_weights : ScalarWeights :=
  ⟨3/10, 1/5, 1/10, 3/20, 1/10, 1/20, 1/20, 1/20⟩

/-- `sum(weights.values())`. -/
def ScalarWeights.total (w : ScalarWeights) : ℚ :=
  w.combined_strength + w.total_volume + w.volume_percentile + w.weekly_volume +
    w.training_days + w.volume_change_pct + w.intensity_avg + w.consistency_pct

/-- `{k: v / weight_sum for k, v in weights.items()}`. -/
def ScalarWeights.renorm (w : ScalarWeights) : ScalarWeights :=
  let s := w.total
  ⟨w.combined_strength / s, w.total_volume / s, w.volume_percentile / s,
    w.weekly_volume / s, w.training_days / s, w.volume_change_pct / s,
    w.intensity_avg / s, w.consistency_pct / s⟩

/-- The dictionary returned by `compute_influence_scalars`: the eight
normalized scalars plus the weighted composite. -/
structure InfluenceScalars where
  combined_strength : ℚ
  total_volume : ℚ
  volume_percentile : ℚ
  weekly_volume : ℚ
  training_days : ℚ
  volume_change_pct : ℚ
  intensity_avg : ℚ
  consistency_pct : ℚ
  influence_scalar : ℚ

/-- `compute_influence_scalars(user_id, days, weights)` from
`backend/engines/scalars.py`, lines 24-103, as a function of the raw metric
records the two metric collaborators return.  Note that the source divides the
training-day count by `min(days, 7)`, not by `days`, and does not cap the
quotient; every stored value is passed through `round(v, 3)`, and the
composite is rounded twice (once when inserted, once in the final
comprehension). -/
def compute_influence_scalars (strength : StrengthMetrics) (cond : ConditioningMetrics)
    (days : ℕ) (weights : ScalarWeights) : InfluenceScalars :=
  let weights := if 1/100 < |weights.total - 1| then weights.renorm else weights
  let norm_strength := min (strength.combined_strength / 2) 1
  let norm_total_vol := min (strength.total_volume / 10000) 1
  let norm_vol_pct := strength.volume_percentile / 100
  let norm_weekly := min (cond.weekly_volume / 20000) 1
  let norm_days := cond.training_days / ((min days 7 : ℕ) : ℚ)
  let norm_change := max (min ((cond.volume_change_pct + 100) / 200) 1) 0
  let norm_intensity := min (cond.intensity_avg / 100) 1
  let norm_consistency := max (1 - cond.consistency_pct / 100) 0
  let influence :=
    norm_strength * weights.combined_strength + norm_total_vol * weights.total_volume +
      norm_vol_pct * weights.volume_percentile + norm_weekly * weights.weekly_volume +
      norm_days * weights.training_days + norm_change * weights.volume_change_pct +
      norm_intensity * weights.intensity_avg + norm_consistency * weights.consistency_pct
  { combined_strength := pyRound norm_strength 3
    total_volume := pyRound norm_total_vol 3
    volume_percentile := pyRound norm_vol_pct 3
    weekly_volume := pyRound norm_weekly 3
    training_days := pyRound norm_days 3
    volume_change_pct := pyRound norm_change 3
    intensity_avg := pyRound norm_intensity 3
    consistency_pct := pyRound norm_consistency 3
    influence_scalar := pyRound (pyRound influence 3) 3 }

/-! ### Progress-ratio fragment of `calculate_goal_progress`
(`backend/engines/target_vector.py`, lines 1049-1066) -/

/-- `progress_ratio = overall_progress_pct / expected_progress if
expected_progress > 0 else 1.0` (source name: `progress_ratio`). -/
def progress_ratio_q (overall_pct expected : ℚ) : ℚ :=
  if 0 < expected then overall_pct / expected else 1

/-- The `progress_status` classification of `calculate_goal_progress`. -/
def progress_status (r : ℚ) : String :=
  if 6/5 ≤ r then "ahead"
  else if 4/5 ≤ r then "on_track"
  else if 1/2 ≤ r then "slightly_behind"
  else "behind"

/-- `on_track = progress_ratio >= 0.8`. -/
def on_track (r : ℚ) : Bool := 4/5 ≤ r

/-! ### Per-dimension progress loop of `calculate_goal_progress`
(`backend/engines/target_vector.py`, lines 959-1017) -/

/-- The progress percentage computed for a single common dimension: when
target and baseline coincide to within 0.001 the value is 100 or 0 according
to whether the current value has reached the target; otherwise the linear
ratio clamped to [0, 100]. -/
def dimension_progress (baseline target current : ℚ) : ℚ :=
  if |target - baseline| < 1/1000 then (if target ≤ current then 100 else 0)
  else min 100 (max 0 ((current - baseline) / (target - baseline) * 100))

/-- The data the loop consumes for one common dimension: its importance
weight and its baseline, target, and current values. -/
structure DimEntry where
  importance : ℚ
  baseline : ℚ
  target : ℚ
  current : ℚ

/-- `overall_progress_pct`: the importance-weighted average of the
per-dimension progress percentages, rounded to one decimal, or `0.0` when the
accumulated importance `progress_count` is not positive. -/
def overall_progress_pct (entries : List DimEntry) : ℚ :=
  if 0 < (entries.map DimEntry.importance).sum then
    pyRound
      ((entries.map fun e => dimension_progress e.baseline e.target e.current * e.importance).sum /
        (entries.map DimEntry.importance).sum) 1
  else 0

/-- The current value `c'` lies weakly between the old current value `c` and
the target (movement toward the target, on either side). -/
def movesToward (target c c' : ℚ) : Prop :=
  (c ≤ c' ∧ c' ≤ target) ∨ (target ≤ c' ∧ c' ≤ c)

/-! ### `archive_completed_goals` (`backend/engines/target_vector.py`,
lines 1700-1745) -/

/-- One row of the `target_profile` table, restricted to the columns
`archive_completed_goals` reads. -/
structure GoalRow where
  target_id : ℕ
  status : String
  target_date : ℤ

/-- `archive_completed_goals(user_id)`: dates are day numbers, the
`calculate_goal_progress` call is the oracle `progress` (`none` models the
exception swallowed by the per-goal `try`).  Returns the list of
`(target_id, new status)` updates issued and the returned counter, which the
source increments only in the `completed` branch. -/
def archive_completed_goals (goals : List GoalRow) (today : ℤ)
    (progress : ℕ → Option ℚ) : List (ℕ × String) × ℕ :=
  let expired_goals :=
    (goals.filter (fun g => g.status == "active" && decide (g.target_date < today))).map
      GoalRow.target_id
  expired_goals.foldl (fun acc goal_id =>
    match progress goal_id with
    | none => acc
    | some p =>
      if 80 ≤ p then (acc.1 ++ [(goal_id, "completed")], acc.2 + 1)
      else (acc.1 ++ [(goal_id, "expired")], acc.2)) ([], 0)

/-! ### Percent-change fragment of `analyze_vector_trends`
(`backend/engines/user_vector.py`, lines 410-432) -/

/-- The per-dimension percent change between the earliest and latest
snapshot values. -/
def change_pct (first_value latest_value : ℚ) : ℚ :=
  if 0 < first_value then (latest_value - first_value) / first_value * 100
  else if 0 < latest_value then 100 else 0

/-- The trend classification applied to a percent change. -/
def trend_label (c : ℚ) : String :=
  if 5 < c then "improving" else if c < -5 then "declining" else "stable"

/-- Explicit form of `compute_influence_scalars` at the default weight table
(the table sums to exactly 1, so the renormalization branch is not taken). -/
theorem compute_influence_scalars_default (sm : StrengthMetrics) (cm : ConditioningMetrics)
    (days : ℕ) :
    compute_influence_scalars sm cm days default_weights =
      { combined_strength := pyRound (min (sm.combined_strength / 2) 1) 3
        total_volume := pyRound (min (sm.total_volume / 10000) 1) 3
        volume_percentile := pyRound (sm.volume_percentile / 100) 3
        weekly_volume := pyRound (min (cm.weekly_volume / 20000) 1) 3
        training_days := pyRound (cm.training_days / ((min days 7 : ℕ) : ℚ)) 3
        volume_change_pct := pyRound (max (min ((cm.volume_change_pct + 100) / 200) 1) 0) 3
        intensity_avg := pyRound (min (cm.intensity_avg / 100) 1) 3
        consistency_pct := pyRound (max (1 - cm.consistency_pct / 100) 0) 3
        influence_scalar := pyRound (pyRound
          (min (sm.combined_strength / 2) 1 * (3/10) + min (sm.total_volume / 10000) 1 * (1/5) +
            sm.volume_percentile / 100 * (1/10) + min (cm.weekly_volume / 20000) 1 * (3/20) +
            cm.training_days / ((min days 7 : ℕ) : ℚ) * (1/10) +
            max (min ((cm.volume_change_pct + 100) / 200) 1) 0 * (1/20) +
            min (cm.intensity_avg / 100) 1 * (1/20) +
            max (1 - cm.consistency_pct / 100) 0 * (1/20)) 3) 3 } := by
  unfold compute_influence_scalars
  norm_num [default_weights, ScalarWeights.total]

/-- C2 counterexample: for the metrics record with 14 training days over a
14-day lookback window (and every other raw metric 0), the training-days
scalar computed by `compute_influence_scalars` is `14 / min(14, 7) = 2`: it
exceeds 1 and differs from the count divided by the window length
(`14 / 14 = 1`), so neither the [0,1] bound nor the stated quotient holds. -/
theorem compute_influence_scalars_cex :
    (compute_influence_scalars ⟨0, 0, 0⟩ ⟨0, 14, 0, 0, 0⟩ 14 default_weights).training_days = 2 ∧
    ¬ (compute_influence_scalars ⟨0, 0, 0⟩ ⟨0, 14, 0, 0, 0⟩ 14
        default_weights).training_days ≤ 1 ∧
    (compute_influence_scalars ⟨0, 0, 0⟩ ⟨0, 14, 0, 0, 0⟩ 14
        default_weights).training_days ≠ (14 : ℚ) / 14 := by
  have h : (compute_influence_scalars ⟨0, 0, 0⟩ ⟨0, 14, 0, 0, 0⟩ 14
      default_weights).training_days = 2 := by
    norm_num [compute_influence_scalars, default_weights, ScalarWeights.total, pyRound,
      roundHalfEven, Int.fract]
  refine ⟨h, ?_, ?_⟩ <;> rw [h] <;> norm_num

/-- C2 (amended): with the default weight table, non-negative raw metrics and
a percentile in [0,100], the seven scalars other than `training_days` lie in
[0,1]; the training-days scalar is the count divided by `min(days, 7)` (after
rounding), not by the window length, and it lies in [0,1] — as does the
weighted composite — only under the additional premise that the count does
not exceed `min(days, 7)`. -/
theorem compute_influence_scalars_bounded (sm : StrengthMetrics) (cm : ConditioningMetrics)
    (days : ℕ) (s : InfluenceScalars)
    (hs : s = compute_influence_scalars sm cm days default_weights)
    (h1 : 0 ≤ sm.combined_strength) (h2 : 0 ≤ sm.total_volume)
    (h3 : 0 ≤ sm.volume_percentile) (h4 : sm.volume_percentile ≤ 100)
    (h5 : 0 ≤ cm.weekly_volume) (h6 : 0 ≤ cm.training_days)
    (h7 : 0 ≤ cm.intensity_avg) (h8 : 0 ≤ cm.consistency_pct)
    (h9 : 1 ≤ days) :
    (0 ≤ s.combined_strength ∧ s.combined_strength ≤ 1) ∧
    (0 ≤ s.total_volume ∧ s.total_volume ≤ 1) ∧
    (0 ≤ s.volume_percentile ∧ s.volume_percentile ≤ 1) ∧
    (0 ≤ s.weekly_volume ∧ s.weekly_volume ≤ 1) ∧
    (0 ≤ s.volume_change_pct ∧ s.volume_change_pct ≤ 1) ∧
    (0 ≤ s.intensity_avg ∧ s.intensity_avg ≤ 1) ∧
    (0 ≤ s.consistency_pct ∧ s.consistency_pct ≤ 1) ∧
    s.training_days = pyRound (cm.training_days / ((min days 7 : ℕ) : ℚ)) 3 ∧
    (cm.training_days ≤ ((min days 7 : ℕ) : ℚ) →
      (0 ≤ s.training_days ∧ s.training_days ≤ 1) ∧
      (0 ≤ s.influence_scalar ∧ s.influence_scalar ≤ 1)) := by
  subst hs
  rw [compute_influence_scalars_default]
  have hmd : (1 : ℚ) ≤ ((min days 7 : ℕ) : ℚ) := by
    have : 1 ≤ min days 7 := le_min h9 (by norm_num)
    exact_mod_cast this
  have hmd0 : (0 : ℚ) < ((min days 7 : ℕ) : ℚ) := by linarith
  have bns : 0 ≤ min (sm.combined_strength / 2) 1 ∧ min (sm.combined_strength / 2) 1 ≤ 1 :=
    ⟨le_min (by positivity) (by norm_num), min_le_right _ _⟩
  have bnt : 0 ≤ min (sm.total_volume / 10000) 1 ∧ min (sm.total_volume / 10000) 1 ≤ 1 :=
    ⟨le_min (by positivity) (by norm_num), min_le_right _ _⟩
  have bnp : 0 ≤ sm.volume_percentile / 100 ∧ sm.volume_percentile / 100 ≤ 1 :=
    ⟨by positivity, by rw [div_le_one (by norm_num : (0:ℚ) < 100)]; exact h4⟩
  have bnw : 0 ≤ min (cm.weekly_volume / 20000) 1 ∧ min (cm.weekly_volume / 20000) 1 ≤ 1 :=
    ⟨le_min (by positivity) (by norm_num), min_le_right _ _⟩
  have bnc : 0 ≤ max (min ((cm.volume_change_pct + 100) / 200) 1) 0 ∧
      max (min ((cm.volume_change_pct + 100) / 200) 1) 0 ≤ 1 :=
    ⟨le_max_right _ _, max_le (min_le_right _ _) (by norm_num)⟩
  have bni : 0 ≤ min (cm.intensity_avg / 100) 1 ∧ min (cm.intensity_avg / 100) 1 ≤ 1 :=
    ⟨le_min (by positivity) (by norm_num), min_le_right _ _⟩
  have hc100 : 0 ≤ cm.consistency_pct / 100 := by positivity
  have bnk : 0 ≤ max (1 - cm.consistency_pct / 100) 0 ∧
      max (1 - cm.consistency_pct / 100) 0 ≤ 1 :=
    ⟨le_max_right _ _, max_le (by linarith) (by norm_num)⟩
  refine ⟨⟨pyRound_nonneg 3 bns.1, pyRound_le_one 3 bns.2⟩,
    ⟨pyRound_nonneg 3 bnt.1, pyRound_le_one 3 bnt.2⟩,
    ⟨pyRound_nonneg 3 bnp.1, pyRound_le_one 3 bnp.2⟩,
    ⟨pyRound_nonneg 3 bnw.1, pyRound_le_one 3 bnw.2⟩,
    ⟨pyRound_nonneg 3 bnc.1, pyRound_le_one 3 bnc.2⟩,
    ⟨pyRound_nonneg 3 bni.1, pyRound_le_one 3 bni.2⟩,
    ⟨pyRound_nonneg 3 bnk.1, pyRound_le_one 3 bnk.2⟩, rfl, ?_⟩
  intro htd
  have bnd : 0 ≤ cm.training_days / ((min days 7 : ℕ) : ℚ) ∧
      cm.training_days / ((min days 7 : ℕ) : ℚ) ≤ 1 :=
    ⟨by positivity, by rw [div_le_one hmd0]; exact htd⟩
  refine ⟨⟨pyRound_nonneg 3 bnd.1, pyRound_le_one 3 bnd.2⟩, ?_⟩
  have t1 := mul_nonneg bns.1 (by norm_num : (0:ℚ) ≤ 3/10)
  have t2 := mul_nonneg bnt.1 (by norm_num : (0:ℚ) ≤ 1/5)
  have t3 := mul_nonneg bnp.1 (by norm_num : (0:ℚ) ≤ 1/10)
  have t4 := mul_nonneg bnw.1 (by norm_num : (0:ℚ) ≤ 3/20)
  have t5 := mul_nonneg bnd.1 (by norm_num : (0:ℚ) ≤ 1/10)
  have t6 := mul_nonneg bnc.1 (by norm_num : (0:ℚ) ≤ 1/20)
  have t7 := mul_nonneg bni.1 (by norm_num : (0:ℚ) ≤ 1/20)
  have t8 := mul_nonneg bnk.1 (by norm_num : (0:ℚ) ≤ 1/20)
  have u1 := mul_le_of_le_one_left (by norm_num : (0:ℚ) ≤ 3/10) bns.2
  have u2 := mul_le_of_le_one_left (by norm_num : (0:ℚ) ≤ 1/5) bnt.2
  have u3 := mul_le_of_le_one_left (by norm_num : (0:ℚ) ≤ 1/10) bnp.2
  have u4 := mul_le_of_le_one_left (by norm_num : (0:ℚ) ≤ 3/20) bnw.2
  have u5 := mul_le_of_le_one_left (by norm_num : (0:ℚ) ≤ 1/10) bnd.2
  have u6 := mul_le_of_le_one_left (by norm_num : (0:ℚ) ≤ 1/20) bnc.2
  have u7 := mul_le_of_le_one_left (by norm_num : (0:ℚ) ≤ 1/20) bni.2
  have u8 := mul_le_of_le_one_left (by norm_num : (0:ℚ) ≤ 1/20) bnk.2
  constructor
  · exact pyRound_nonneg 3 (pyRound_nonneg 3 (by linarith))
  · exact pyRound_le_one 3 (pyRound_le_one 3 (by linarith))

/-- Witness for the amended C2 theorem at a concrete metrics record. -/
theorem compute_influence_scalars_bounded_witness :
    0 ≤ (compute_influence_scalars ⟨1, 100, 50⟩ ⟨0, 3, 0, 0, 0⟩ 7
        default_weights).influence_scalar ∧
    (compute_influence_scalars ⟨1, 100, 50⟩ ⟨0, 3, 0, 0, 0⟩ 7
        default_weights).influence_scalar ≤ 1 := by
  have h := compute_influence_scalars_bounded ⟨1, 100, 50⟩ ⟨0, 3, 0, 0, 0⟩ 7
    (compute_influence_scalars ⟨1, 100, 50⟩ ⟨0, 3, 0, 0, 0⟩ 7 default_weights) rfl
    (by norm_num) (by norm_num) (by norm_num) (by norm_num) (by norm_num) (by norm_num)
    (by norm_num) (by norm_num) (by norm_num)
  exact (h.2.2.2.2.2.2.2.2 (by norm_num)).2

/-- C4: in the status fragment of `calculate_goal_progress`, whenever the
(non-negative) overall progress equals the expected progress the `on_track`
flag is set, whenever it is below half the expected progress the flag is
clear, and the flag agrees exactly with the `ahead` / `on_track` statuses.
The non-negativity premise is what the code guarantees for
`overall_progress_pct` (see `overall_progress_pct_nonneg`). -/
theorem calculate_goal_progress_on_track (o e : ℚ) (ho : 0 ≤ o) :
    (o = e → on_track (progress_ratio_q o e) = true) ∧
    (o < e / 2 → on_track (progress_ratio_q o e) = false) ∧
    (∀ r : ℚ, on_track r = true ↔
      (progress_status r = "ahead" ∨ progress_status r = "on_track")) := by
  refine ⟨?_, ?_, ?_⟩
  · intro h
    subst h
    unfold progress_ratio_q on_track
    split
    · rename_i h0
      rw [div_self (ne_of_gt h0)]
      norm_num
    · norm_num
  · intro h
    have he : 0 < e := by linarith
    unfold progress_ratio_q on_track
    rw [if_pos he]
    have : o / e < 4/5 := by
      rw [div_lt_iff₀ he]
      linarith
    simpa using not_le.mpr this
  · intro r
    unfold on_track progress_status
    by_cases h1 : (6/5 : ℚ) ≤ r
    · rw [if_pos h1]
      have : (4/5 : ℚ) ≤ r := by linarith
      simp [this]
    · rw [if_neg h1]
      by_cases h2 : (4/5 : ℚ) ≤ r
      · rw [if_pos h2]
        simp [h2]
      · rw [if_neg h2]
        by_cases h3 : (1/2 : ℚ) ≤ r
        · rw [if_pos h3]
          simp [h2]
        · rw [if_neg h3]
          simp [h2]

/-- Witness for the C4 theorem: equal progress is on track, progress below
half of expected is not. -/
theorem calculate_goal_progress_on_track_witness :
    on_track (progress_ratio_q 50 50) = true ∧ on_track (progress_ratio_q 10 50) = false :=
  ⟨(calculate_goal_progress_on_track 50 50 (by norm_num)).1 rfl,
    (calculate_goal_progress_on_track 10 50 (by norm_num)).2.1 (by norm_num)⟩

/-- C6: evaluation of `archive_completed_goals` on a user with two active
goals past their target date, one at 85% vector progress and one at 40%.
The function marks the first `completed` and the second `expired` — two goals
are archived — yet it returns 1, because the source increments its counter
only in the `completed` branch while its docstring promises the number of
goals archived. -/
theorem archive_completed_goals_eval :
    archive_completed_goals [⟨1, "active", 5⟩, ⟨2, "active", 5⟩] 10
        (fun goal_id => if goal_id = 1 then some 85 else if goal_id = 2 then some 40 else none) =
      ([(1, "completed"), (2, "expired")], 1) ∧
    ([(1, "completed"), (2, "expired")] : List (ℕ × String)).length = 2 := by
  constructor
  · norm_num [archive_completed_goals, List.filter, List.foldl]
  · rfl

/-- C10: the percent-change computation of `analyze_vector_trends` divides
only when the earliest value is positive; at an earliest value of exactly 0
it returns 100 or 0 according to the sign of the latest value, and the trend
classification always yields one of the three labels. -/
theorem analyze_vector_trends_total (f l : ℚ) :
    (f = 0 → change_pct f l = if 0 < l then 100 else 0) ∧
    (trend_label (change_pct f l) = "improving" ∨ trend_label (change_pct f l) = "declining" ∨
      trend_label (change_pct f l) = "stable") := by
  constructor
  · intro hf
    subst hf
    unfold change_pct
    norm_num
  · unfold trend_label
    by_cases h1 : (5 : ℚ) < change_pct f l
    · rw [if_pos h1]
      exact Or.inl rfl
    · rw [if_neg h1]
      by_cases h2 : change_pct f l < -5
      · rw [if_pos h2]
        exact Or.inr (Or.inl rfl)
      · rw [if_neg h2]
        exact Or.inr (Or.inr rfl)

/-- Witness for the C10 theorem: a dimension starting at 0 and ending
positive is reported as a 100% change. -/
theorem analyze_vector_trends_total_witness : change_pct 0 3 = 100 := by
  have h := (analyze_vector_trends_total 0 3).1 rfl
  rw [h]
  norm_num

/-- The progress loop accumulates clamped, hence non-negative, contributions,
so `overall_progress_pct` is non-negative whenever the importance weights
are; this is the state the status fragment receives it in. -/
theorem overall_progress_pct_nonneg (l : List DimEntry)
    (hw : ∀ e ∈ l, 0 ≤ e.importance) : 0 ≤ overall_progress_pct l := by
  unfold overall_progress_pct
  split
  · rename_i hpc
    apply pyRound_nonneg
    apply div_nonneg _ (le_of_lt hpc)
    apply List.sum_nonneg
    intro x hx
    simp only [List.mem_map] at hx
    obtain ⟨e, he, rfl⟩ := hx
    apply mul_nonneg _ (hw e he)
    unfold dimension_progress
    split
    · split <;> norm_num
    · exact le_min (by norm_num) (le_max_left _ _)
  · exact le_refl 0

/-- Moving the current value of one dimension (weakly) toward its target
never decreases that dimension's progress percentage. -/
theorem dimension_progress_mono (b t c c' : ℚ) (h : movesToward t c c') :
    dimension_progress b t c ≤ dimension_progress b t c' := by
  unfold movesToward at h
  unfold dimension_progress
  by_cases hd : |t - b| < 1/1000
  · rw [if_pos hd, if_pos hd]
    by_cases hc : t ≤ c
    · have hc' : t ≤ c' := by
        rcases h with ⟨h1, h2⟩ | ⟨h1, h2⟩
        · linarith
        · exact h1
      rw [if_pos hc, if_pos hc']
    · rw [if_neg hc]
      split <;> norm_num
  · rw [if_neg hd, if_neg hd]
    have htb : t ≠ b := by
      intro hEq
      apply hd
      rw [hEq]
      norm_num
    rcases htb.lt_or_lt with hlt | hgt
    · have hdneg : t - b < 0 := by linarith
      rcases h with ⟨h1, h2⟩ | ⟨h1, h2⟩
      · have hr : (100 : ℚ) ≤ (c' - b) / (t - b) * 100 := by
          have h0 : (t - b) / (t - b) ≤ (c' - b) / (t - b) := by
            rw [div_le_div_right_of_neg hdneg]
            linarith
          rw [div_self (ne_of_lt hdneg)] at h0
          linarith
        have h100 : min 100 (max 0 ((c' - b) / (t - b) * 100)) = 100 :=
          min_eq_left (le_trans hr (le_max_right _ _))
        rw [h100]
        exact min_le_left _ _
      · have h0 : (c - b) / (t - b) ≤ (c' - b) / (t - b) := by
          rw [div_le_div_right_of_neg hdneg]
          linarith
        have hx : (c - b) / (t - b) * 100 ≤ (c' - b) / (t - b) * 100 := by linarith
        exact min_le_min le_rfl (max_le_max le_rfl hx)
    · have hdpos : 0 < t - b := by linarith
      rcases h with ⟨h1, h2⟩ | ⟨h1, h2⟩
      · have h0 : (c - b) / (t - b) ≤ (c' - b) / (t - b) := by
          rw [div_le_div_iff_of_pos_right hdpos]
          linarith
        have hx : (c - b) / (t - b) * 100 ≤ (c' - b) / (t - b) * 100 := by linarith
        exact min_le_min le_rfl (max_le_max le_rfl hx)
      · have hr : (100 : ℚ) ≤ (c' - b) / (t - b) * 100 := by
          have h0 : (t - b) / (t - b) ≤ (c' - b) / (t - b) := by
            rw [div_le_div_iff_of_pos_right hdpos]
            linarith
          rw [div_self (ne_of_gt hdpos)] at h0
          linarith
        have h100 : min 100 (max 0 ((c' - b) / (t - b) * 100)) = 100 :=
          min_eq_left (le_trans hr (le_max_right _ _))
        rw [h100]
        exact min_le_left _ _

/-- The accumulated `progress_count` only depends on the importance weights,
which movement toward the target keeps fixed. -/
theorem entries_toward_sum_importance (l₁ l₂ : List DimEntry)
    (h : List.Forall₂ (fun a b => a.importance = b.importance ∧ 0 ≤ a.importance ∧
      a.baseline = b.baseline ∧ a.target = b.target ∧
      movesToward a.target a.current b.current) l₁ l₂) :
    (l₁.map DimEntry.importance).sum = (l₂.map DimEntry.importance).sum := by
  induction h with
  | nil => rfl
  | @cons a b la lb hab htail ih => simp only [List.map_cons, List.sum_cons, hab.1, ih]

/-- The accumulated weighted progress is monotone under movement toward the
targets. -/
theorem entries_toward_sum_progress (l₁ l₂ : List DimEntry)
    (h : List.Forall₂ (fun a b => a.importance = b.importance ∧ 0 ≤ a.importance ∧
      a.baseline = b.baseline ∧ a.target = b.target ∧
      movesToward a.target a.current b.current) l₁ l₂) :
    (l₁.map fun e => dimension_progress e.baseline e.target e.current * e.importance).sum
      ≤ (l₂.map fun e => dimension_progress e.baseline e.target e.current * e.importance).sum := by
  induction h with
  | nil => exact le_rfl
  | @cons a b la lb hab htail ih =>
    obtain ⟨hwi, hw0, hb, ht, hm⟩ := hab
    simp only [List.map_cons, List.sum_cons]
    have hdp := dimension_progress_mono a.baseline a.target a.current b.current hm
    rw [← hb, ← ht, ← hwi]
    exact add_le_add (mul_le_mul_of_nonneg_right hdp hw0) ih


/-- C5: holding the importance weights (non-negative), baselines and targets
of the common dimensions fixed, `overall_progress_pct` is monotonically
non-decreasing when every current value moves (weakly) toward its target. -/
theorem overall_progress_pct_mono (l₁ l₂ : List DimEntry)
    (h : List.Forall₂ (fun a b => a.importance = b.importance ∧ 0 ≤ a.importance ∧
      a.baseline = b.baseline ∧ a.target = b.target ∧
      movesToward a.target a.current b.current) l₁ l₂) :
    overall_progress_pct l₁ ≤ overall_progress_pct l₂ := by
  have hw := entries_toward_sum_importance l₁ l₂ h
  have hs := entries_toward_sum_progress l₁ l₂ h
  unfold overall_progress_pct
  rw [hw]
  by_cases hpc : 0 < (l₂.map DimEntry.importance).sum
  · rw [if_pos hpc, if_pos hpc]
    exact pyRound_mono 1 ((div_le_div_iff_of_pos_right hpc).mpr hs)
  · rw [if_neg hpc, if_neg hpc]

/-- Witness for the C5 theorem: a single dimension with baseline 0, target 1
whose current value moves from 0 to 1/2. -/
theorem overall_progress_pct_mono_witness :
    overall_progress_pct [⟨1, 0, 1, 0⟩] ≤ overall_progress_pct [⟨1, 0, 1, 1/2⟩] :=
  overall_progress_pct_mono _ _ (by
    refine List.Forall₂.cons ?_ List.Forall₂.nil
    exact ⟨rfl, by norm_num, rfl, rfl, Or.inl ⟨by norm_num, by norm_num⟩⟩)

/-! ### Vector math primitives (`backend/engines/base_vector.py`).
The module's `normalize` clashes with a Mathlib name, so the file embeds
this module inside the namespace `BaseVector`. -/

namespace BaseVector

/-- `np.linalg.norm(vector)`: the Euclidean norm. -/
noncomputable def eunorm (v : List ℝ) : ℝ :=
  Real.sqrt ((v.map fun x => x ^ 2).sum)

/-- `normalize(vector)` from `base_vector.py`, lines 15-31: scale to unit
length, returning the input unchanged when its norm is zero. -/
noncomputable def normalize (v : List ℝ) : List ℝ :=
  if eunorm v = 0 then v else v.map fun x => x / eunorm v

/-- `np.dot` on equal-length vectors. -/
noncomputable def dotp (a b : List ℝ) : ℝ :=
  (List.zipWith (· * ·) a b).sum

/-- `weighted_similarity(vec1, vec2, weights)` from `base_vector.py`,
lines 34-69: optionally scale both vectors elementwise by the normalized
weight vector, return 0.0 when either weighted vector has zero norm, and
otherwise the cosine similarity clamped to [-1, 1] and remapped to [0, 1]
when negative. -/
noncomputable def weighted_similarity (vec1 vec2 : List ℝ) (weights : Option (List ℝ)) : ℝ :=
  let v1 := match weights with
    | none => vec1
    | some w => List.zipWith (· * ·) vec1 (normalize w)
  let v2 := match weights with
    | none => vec2
    | some w => List.zipWith (· * ·) vec2 (normalize w)
  if eunorm v1 = 0 ∨ eunorm v2 = 0 then 0
  else
    let similarity := max (min (dotp v1 v2 / (eunorm v1 * eunorm v2)) 1) (-1)
    if similarity < 0 then (similarity + 1) / 2 else similarity

theorem sumsq_nonneg (v : List ℝ) : 0 ≤ (v.map fun x => x ^ 2).sum := by
  apply List.sum_nonneg
  intro x hx
  simp only [List.mem_map] at hx
  obtain ⟨y, _, rfl⟩ := hx
  positivity

theorem eunorm_nonneg (v : List ℝ) : 0 ≤ eunorm v := Real.sqrt_nonneg _

theorem eunorm_sq (v : List ℝ) : eunorm v * eunorm v = (v.map fun x => x ^ 2).sum :=
  Real.mul_self_sqrt (sumsq_nonneg v)

theorem eunorm_map_div (v : List ℝ) (h : 0 < eunorm v) :
    eunorm (v.map fun x => x / eunorm v) = 1 := by
  have hsum : ((v.map fun x => x / eunorm v).map fun x => x ^ 2).sum
      = (v.map fun x => x ^ 2).sum * (eunorm v ^ 2)⁻¹ := by
    rw [List.map_map]
    have hfun : ((fun x => x ^ 2) ∘ fun x => x / eunorm v)
        = fun x => x ^ 2 * (eunorm v ^ 2)⁻¹ := by
      funext x
      simp only [Function.comp_apply]
      rw [div_pow, div_eq_mul_inv]
    rw [hfun, List.sum_map_mul_right]
  have houter : eunorm (v.map fun x => x / eunorm v)
      = Real.sqrt (((v.map fun x => x / eunorm v).map fun x => x ^ 2).sum) := rfl
  have hval : (v.map fun x => x ^ 2).sum = eunorm v ^ 2 := by
    rw [sq]
    exact (eunorm_sq v).symm
  rw [houter, hsum, hval, mul_inv_cancel₀ (by positivity), Real.sqrt_one]

/-- C8: `normalize` divides by the Euclidean norm and yields a unit vector
whenever the norm is positive; on the zero vector it is the identity rather
than an error or a NaN. -/
theorem normalize_spec (v : List ℝ) :
    (0 < eunorm v →
      normalize v = v.map (fun x => x / eunorm v) ∧ eunorm (normalize v) = 1) ∧
    ((∀ x ∈ v, x = 0) → normalize v = v) := by
  constructor
  · intro h
    have hne : eunorm v ≠ 0 := ne_of_gt h
    have hmap : normalize v = v.map fun x => x / eunorm v := by
      unfold normalize
      rw [if_neg hne]
    exact ⟨hmap, by rw [hmap]; exact eunorm_map_div v h⟩
  · intro h
    have hz : (v.map fun x => x ^ 2).sum = 0 := by
      apply List.sum_eq_zero
      intro x hx
      simp only [List.mem_map] at hx
      obtain ⟨y, hy, rfl⟩ := hx
      rw [h y hy]
      norm_num
    unfold normalize eunorm
    rw [hz, Real.sqrt_zero, if_pos rfl]

/-- Witness for the C8 theorem at the vector [3, 4], whose norm is 5, and at
the zero vector of length 2. -/
theorem normalize_spec_witness :
    0 < eunorm [(3:ℝ), 4] ∧ eunorm (normalize [(3:ℝ), 4]) = 1 ∧
    normalize [(0:ℝ), 0] = [0, 0] := by
  have h5 : eunorm [(3:ℝ), 4] = 5 := by
    have hsum : (([(3:ℝ), 4].map fun x => x ^ 2).sum) = 25 := by norm_num
    unfold eunorm
    rw [hsum, show (25:ℝ) = 5 ^ 2 by norm_num, Real.sqrt_sq (by norm_num)]
  have hpos : 0 < eunorm [(3:ℝ), 4] := by rw [h5]; norm_num
  refine ⟨hpos, ((normalize_spec [3, 4]).1 hpos).2, (normalize_spec [0, 0]).2 ?_⟩
  intro x hx
  have hx' : x = 0 ∨ x = 0 := by simpa using hx
  exact hx'.elim id id

end BaseVector

namespace BaseVector

/-- C7 counterexample: the vectors a = [1, 0] and w = [0, 1] are both
nonzero, yet `weighted_similarity(a, a, w)` returns 0.0, not ≈1.0 — the
weighted vector a∘ŵ is the zero vector, so the zero-norm guard fires. -/
theorem weighted_similarity_cex :
    weighted_similarity [1, 0] [1, 0] (some [0, 1]) = 0 ∧
    weighted_similarity [1, 0] [1, 0] (some [0, 1]) ≠ 1 := by
  have hw : eunorm [(0:ℝ), 1] = 1 := by
    have hsum : (([(0:ℝ), 1].map fun x => x ^ 2).sum) = 1 := by norm_num
    unfold eunorm
    rw [hsum, Real.sqrt_one]
  have hnorm : normalize [(0:ℝ), 1] = [0, 1] := by
    unfold normalize
    rw [hw]
    norm_num
  have hzero : eunorm [(0:ℝ), 0] = 0 := by
    have hsum : (([(0:ℝ), 0].map fun x => x ^ 2).sum) = 0 := by norm_num
    unfold eunorm
    rw [hsum, Real.sqrt_zero]
  have hmain : weighted_similarity [1, 0] [1, 0] (some [0, 1]) = 0 := by
    simp only [weighted_similarity, hnorm]
    norm_num [List.zipWith, hzero]
  exact ⟨hmain, by rw [hmain]; norm_num⟩

/-- C7 (amended): `weighted_similarity(a, a, w)` equals 1.0 exactly whenever
the elementwise product of `a` with the normalized weight vector has nonzero
norm; for nonzero `a` and `w` with disjoint supports that product is the zero
vector and the function instead returns the zero-norm sentinel 0.0. -/
theorem weighted_similarity_self (a w : List ℝ)
    (h : eunorm (List.zipWith (· * ·) a (normalize w)) ≠ 0) :
    weighted_similarity a a (some w) = 1 := by
  simp only [weighted_similarity]
  rw [if_neg (by push_neg; exact ⟨h, h⟩)]
  have hdot : dotp (List.zipWith (· * ·) a (normalize w)) (List.zipWith (· * ·) a (normalize w))
      = eunorm (List.zipWith (· * ·) a (normalize w)) *
        eunorm (List.zipWith (· * ·) a (normalize w)) := by
    unfold dotp
    rw [eunorm_sq]
    congr 1
    rw [List.zipWith_same]
    congr 1
    funext x
    rw [sq]
  rw [hdot, div_self (mul_ne_zero h h)]
  norm_num

/-- Witness for the amended C7 theorem: a = [3, 0] and w = [2, 0]; the
normalized weight vector is [1, 0] and the weighted vector [3, 0] has
norm 3 ≠ 0. -/
theorem weighted_similarity_self_witness :
    weighted_similarity [3, 0] [3, 0] (some [2, 0]) = 1 := by
  apply weighted_similarity_self
  have hw : eunorm [(2:ℝ), 0] = 2 := by
    have hsum : (([(2:ℝ), 0].map fun x => x ^ 2).sum) = 4 := by norm_num
    unfold eunorm
    rw [hsum, show (4:ℝ) = 2 ^ 2 by norm_num, Real.sqrt_sq (by norm_num)]
  have hnorm : normalize [(2:ℝ), 0] = [1, 0] := by
    unfold normalize
    rw [hw]
    norm_num
  rw [hnorm]
  have hzip : List.zipWith (· * ·) [(3:ℝ), 0] [(1:ℝ), 0] = [3, 0] := by
    norm_num [List.zipWith]
  rw [hzip]
  have h3 : eunorm [(3:ℝ), 0] = 3 := by
    have hsum : (([(3:ℝ), 0].map fun x => x ^ 2).sum) = 9 := by norm_num
    unfold eunorm
    rw [hsum, show (9:ℝ) = 3 ^ 2 by norm_num, Real.sqrt_sq (by norm_num)]
  rw [h3]
  norm_num

end BaseVector

/-! ### Target vector generator (`backend/engines/target_vector.py`) -/

/-- `GoalType` from `backend/models/models.py`. -/
inductive GoalType
  | STRENGTH
  | ENDURANCE
  | WEIGHT_LOSS
  | PERFORMANCE
  | DEFAULT
deriving DecidableEq

/-- Insertion into a Python dict modeled as an insertion-ordered association
list: an existing key keeps its position and gets the new value, a new key is
appended. -/
def pyDictInsert (m : List (String × ℕ)) (k : String) (v : ℕ) : List (String × ℕ) :=
  if m.any (fun kv => kv.1 == k) then
    m.map (fun kv => if kv.1 == k then (k, v) else kv)
  else m ++ [(k, v)]

/-- Python dict lookup. -/
def pyDictGet (m : List (String × ℕ)) (k : String) : Option ℕ :=
  (m.find? (fun kv => kv.1 == k)).map Prod.snd

/-- `dim_to_idx = {dim: i for i, dim in enumerate(dimensions)}`. -/
def dimToIdx (dimensions : List String) : List (String × ℕ) :=
  dimensions.enum.foldl (fun m iv => pyDictInsert m iv.2 iv.1) []

/-- The `improvement_map` table of `_apply_goal_adjustments` (0.3 = 3/10 and
so on), in the dict-literal insertion order the source iterates. -/
noncomputable def improvement_map (goal_type : GoalType) : List (String × ℝ) :=
  match goal_type with
  | .STRENGTH =>
    [("combined_strength", 3/10), ("total_volume", 1/5), ("intensity_avg", 1/4),
      ("influence_scalar", 1/5)]
  | .ENDURANCE =>
    [("weekly_volume", 2/5), ("consistency_pct", 3/10), ("training_days", 3/10)]
  | .WEIGHT_LOSS =>
    [("weekly_volume", 1/2), ("training_days", 2/5), ("intensity_avg", 1/10)]
  | .PERFORMANCE =>
    [("combined_strength", 1/5), ("weekly_volume", 3/10), ("intensity_avg", 3/10),
      ("consistency_pct", 2/5)]
  | .DEFAULT =>
    [("combined_strength", 3/20), ("weekly_volume", 3/20), ("training_days", 3/20)]

/-- One iteration of the improvement loop of `_apply_goal_adjustments`: the
boosted value is `min(current + (1 - current) * (1 - exp(-factor * 2)), 1.0)`,
reading `current` from the original baseline. -/
noncomputable def boost_step (baseline_values : List ℝ) (dim_to_idx : List (String × ℕ))
    (target_values : List ℝ) (df : String × ℝ) : List ℝ :=
  match pyDictGet dim_to_idx df.1 with
  | none => target_values
  | some idx =>
    let current_val := baseline_values.getD idx 0
    target_values.set idx
      (min (current_val + (1 - current_val) * (1 - Real.exp (-df.2 * 2))) 1)

/-- One iteration of the custom-override loop of `_apply_goal_adjustments`:
the supplied value clamped to [0, 1]. -/
noncomputable def custom_step (dim_to_idx : List (String × ℕ)) (target_values : List ℝ)
    (dv : String × ℝ) : List ℝ :=
  match pyDictGet dim_to_idx dv.1 with
  | none => target_values
  | some idx => target_values.set idx (max 0 (min dv.2 1))

/-- `_apply_goal_adjustments(dimensions, baseline_values, goal_type,
custom_dimensions)` from `target_vector.py`, lines 146-256: boost the
goal-specific dimensions with diminishing returns, apply clamped custom
overrides, then recompute `final_scalar` (when tracked) as the baseline value
plus the average improvement of the boosted dimensions, capped at 0.98.
Out-of-range indices (possible only when `baseline_values` is shorter than
`dimensions`, where the source would raise `IndexError`) read as 0.
The trailing `final_scalar` recomputation (lines 232-254) is factored out as
`final_scalar_step`. -/
noncomputable def final_scalar_step (baseline_values : List ℝ)
    (dim_to_idx : List (String × ℕ)) (improvements : List (String × ℝ))
    (target_values : List ℝ) : List ℝ :=
  match pyDictGet dim_to_idx "final_scalar" with
  | none => target_values
  | some final_idx =>
    let improved_dims := dim_to_idx.filter (fun kv =>
      improvements.any (fun df => df.1 == kv.1) && kv.1 != "final_scalar")
    if improved_dims.isEmpty then target_values
    else
      let improved_vals := improved_dims.map (fun kv => target_values.getD kv.2 0)
      let current_vals := improved_dims.map (fun kv => baseline_values.getD kv.2 0)
      let avg_improvement :=
        (List.zipWith (fun t c => t - c) improved_vals current_vals).sum /
          (improved_dims.length : ℝ)
      target_values.set final_idx
        (min (baseline_values.getD final_idx 0 + avg_improvement) (49/50))

noncomputable def apply_goal_adjustments (dimensions : List String) (baseline_values : List ℝ)
    (goal_type : GoalType) (custom_dimensions : Option (List (String × ℝ))) : List ℝ :=
  let dim_to_idx := dimToIdx dimensions
  let improvements := improvement_map goal_type
  let target₁ := improvements.foldl (boost_step baseline_values dim_to_idx) baseline_values
  let target₂ := match custom_dimensions with
    | none => target₁
    | some cds => cds.foldl (custom_step dim_to_idx) target₁
  final_scalar_step baseline_values dim_to_idx improvements target₂

/-- A milestone record as built by `_calculate_milestone_vectors`; the
milestone date is carried as an absolute day number
(`today + int(total_days * percent_decimal)`). -/
structure Milestone where
  percent : ℤ
  date : ℤ
  vector : List ℝ

/-- `_calculate_milestone_vectors(dimensions, baseline_values, target_values,
target_date)` from `target_vector.py`, lines 259-314: no milestones when the
target date is not in the future; otherwise one milestone per
`percent_decimal in [0.25, 0.5, 0.75]`, dated `int(total_days *
percent_decimal)` days after today, with vector `round(baseline + (target -
baseline) * percent_decimal ** 0.7, 3)` componentwise. -/
noncomputable def calculate_milestone_vectors (_dimensions : List String)
    (baseline_values target_values : List ℝ) (today target_date : ℤ) : List Milestone :=
  let total_days := target_date - today
  if total_days ≤ 0 then []
  else
    [(1/4 : ℝ), 1/2, 3/4].map fun percent_decimal =>
      { percent := ⌊percent_decimal * 100⌋
        date := today + ⌊(total_days : ℝ) * percent_decimal⌋
        vector := List.zipWith
          (fun b t => pyRound (b + (t - b) * percent_decimal ^ (0.7 : ℝ)) 3)
          baseline_values target_values }

/-- The validation failures named by the specification for goal
initialization.  They do not occur in the source: `initialize_target_vector`
logs and returns `None` instead of raising. -/
inductive SpecError
  | invalidDate
  | notFound
deriving DecidableEq

/-- The part of a stored `UserVector` that goal initialization reads. -/
structure UserVectorE where
  dimensions : List String
  vector : List ℝ

/-- The `TargetVector` record built by `initialize_target_vector`. -/
structure TargetVectorE where
  target_id : ℕ
  user_id : ℕ
  goal_type : GoalType
  profile_name : String
  target_date : ℤ
  dimensions : List String
  vector : List ℝ
  milestones : List Milestone

/-- `initialize_target_vector` from `target_vector.py`, lines 39-143, for a
`target_date` already supplied as a date.  Dates are day numbers and `today`
is explicit; the `get_user_vector` lookup and the database insert are passed
in as their results (`user_vector`, `persisted_id`); the goal description
plays no role in any claim and is omitted.  The `Except` layer is the
function's exception channel: the source raises nothing on the validation
paths — it logs and returns `None` — so every branch below is `Except.ok`. -/
noncomputable def initialize_target_vector (user_id : ℕ) (goal_type : GoalType)
    (target_date : ℤ) (profile_name : String)
    (custom_dimensions : Option (List (String × ℝ))) (today : ℤ)
    (user_vector : Option UserVectorE) (persisted_id : Option ℕ) :
    Except SpecError (Option TargetVectorE) :=
  if target_date ≤ today then Except.ok none
  else
    match user_vector with
    | none => Except.ok none
    | some uv =>
      let target_values := apply_goal_adjustments uv.dimensions uv.vector goal_type
        custom_dimensions
      let milestones := calculate_milestone_vectors uv.dimensions uv.vector target_values
        today target_date
      match persisted_id with
      | none => Except.ok none
      | some tid =>
        Except.ok (some
          { target_id := tid, user_id := user_id, goal_type := goal_type
            profile_name := profile_name, target_date := target_date
            dimensions := uv.dimensions, vector := target_values, milestones := milestones })

/-- C1 counterexample: with a target date equal to today (not strictly in the
future) `initialize_target_vector` returns `None` — it does not raise
`InvalidDateError` (no such error exists in the code); with a future date but
no stored user vector it likewise returns `None` rather than raising
`NotFoundError`. -/
theorem initialize_target_vector_cex :
    initialize_target_vector 1 GoalType.STRENGTH 0 "default" none 0
        (some ⟨["combined_strength"], [1/2]⟩) (some 1) = Except.ok none ∧
    initialize_target_vector 1 GoalType.STRENGTH 0 "default" none 0
        (some ⟨["combined_strength"], [1/2]⟩) (some 1) ≠ Except.error SpecError.invalidDate ∧
    initialize_target_vector 1 GoalType.STRENGTH 30 "default" none 0 none (some 1) =
      Except.ok none ∧
    initialize_target_vector 1 GoalType.STRENGTH 30 "default" none 0 none (some 1) ≠
      Except.error SpecError.notFound := by
  have h1 : initialize_target_vector 1 GoalType.STRENGTH 0 "default" none 0
      (some ⟨["combined_strength"], [1/2]⟩) (some 1) = Except.ok none := by
    unfold initialize_target_vector
    norm_num
  have h2 : initialize_target_vector 1 GoalType.STRENGTH 30 "default" none 0 none (some 1) =
      Except.ok none := by
    unfold initialize_target_vector
    norm_num
  refine ⟨h1, ?_, h2, ?_⟩
  · rw [h1]
    simp
  · rw [h2]
    simp

/-- C1 (amended): when the target date is not strictly after today, or when
the user has no stored vector, `initialize_target_vector` fails by returning
`None` (after logging) — no exception is raised and no default `TargetVector`
is fabricated; indeed no input makes the function raise at all. -/
theorem initialize_target_vector_none (user_id : ℕ) (goal_type : GoalType)
    (target_date : ℤ) (profile_name : String)
    (custom_dimensions : Option (List (String × ℝ))) (today : ℤ)
    (user_vector : Option UserVectorE) (persisted_id : Option ℕ) :
    (target_date ≤ today →
      initialize_target_vector user_id goal_type target_date profile_name custom_dimensions
        today user_vector persisted_id = Except.ok none) ∧
    (user_vector = none →
      initialize_target_vector user_id goal_type target_date profile_name custom_dimensions
        today user_vector persisted_id = Except.ok none) ∧
    (∀ e : SpecError,
      initialize_target_vector user_id goal_type target_date profile_name custom_dimensions
        today user_vector persisted_id ≠ Except.error e) := by
  refine ⟨?_, ?_, ?_⟩
  · intro h
    unfold initialize_target_vector
    rw [if_pos h]
  · intro h
    subst h
    unfold initialize_target_vector
    by_cases hd : target_date ≤ today
    · rw [if_pos hd]
    · rw [if_neg hd]
  · intro e
    unfold initialize_target_vector
    by_cases hd : target_date ≤ today
    · rw [if_pos hd]
      simp
    · rw [if_neg hd]
      match user_vector with
      | none => simp
      | some uv =>
        match persisted_id with
        | none => simp
        | some tid => simp

/-- Witness for the amended C1 theorem: a target date in the past yields
`Except.ok none`, and so does a missing user vector. -/
theorem initialize_target_vector_none_witness :
    initialize_target_vector 7 GoalType.DEFAULT 3 "default" none 5 none none =
      Except.ok none :=
  (initialize_target_vector_none 7 GoalType.DEFAULT 3 "default" none 5 none none).1
    (by norm_num)

/-- `List.getD` after `List.set`. -/
theorem getD_set (l : List ℝ) (i j : ℕ) (a d : ℝ) :
    (l.set i a).getD j d = if i = j ∧ j < l.length then a else l.getD j d := by
  by_cases hij : i = j
  · subst hij
    by_cases hi : i < l.length
    · rw [if_pos ⟨rfl, hi⟩]
      simp [List.getD_eq_getElem?_getD, List.getElem?_set_self, hi]
    · rw [List.set_eq_of_length_le (by omega), if_neg (by tauto)]
  · rw [if_neg (by tauto)]
    simp [List.getD_eq_getElem?_getD, List.getElem?_set_ne hij]

/-- Running invariant of `_apply_goal_adjustments`: every entry of the
working target vector is in [0, 1] and at least its baseline value. -/
def vecInv (baseline tv : List ℝ) : Prop :=
  ∀ i : ℕ, 0 ≤ tv.getD i 0 ∧ tv.getD i 0 ≤ 1 ∧ baseline.getD i 0 ≤ tv.getD i 0

theorem improvement_map_nonneg (goal_type : GoalType) :
    ∀ p ∈ improvement_map goal_type, 0 ≤ p.2 := by
  intro p hp
  cases goal_type <;> simp only [improvement_map] at hp <;> fin_cases hp <;> norm_num

theorem boost_step_inv (baseline : List ℝ) (d2i : List (String × ℕ)) (tv : List ℝ)
    (df : String × ℝ)
    (hbase : ∀ i : ℕ, 0 ≤ baseline.getD i 0 ∧ baseline.getD i 0 ≤ 1)
    (hf : 0 ≤ df.2) (hinv : vecInv baseline tv) :
    vecInv baseline (boost_step baseline d2i tv df) := by
  unfold boost_step
  cases hpg : pyDictGet d2i df.1 with
  | none => exact hinv
  | some idx =>
    simp only []
    have hc := hbase idx
    have he1 : Real.exp (-df.2 * 2) ≤ 1 := Real.exp_le_one_iff.mpr (by linarith)
    have he0 : 0 < Real.exp (-df.2 * 2) := Real.exp_pos _
    have himp : 0 ≤ (1 - baseline.getD idx 0) * (1 - Real.exp (-df.2 * 2)) :=
      mul_nonneg (by linarith [hc.2]) (by linarith)
    have hv0 : 0 ≤ min (baseline.getD idx 0 +
        (1 - baseline.getD idx 0) * (1 - Real.exp (-df.2 * 2))) 1 :=
      le_min (by linarith [hc.1]) zero_le_one
    have hv1 : min (baseline.getD idx 0 +
        (1 - baseline.getD idx 0) * (1 - Real.exp (-df.2 * 2))) 1 ≤ 1 := min_le_right _ _
    have hvc : baseline.getD idx 0 ≤ min (baseline.getD idx 0 +
        (1 - baseline.getD idx 0) * (1 - Real.exp (-df.2 * 2))) 1 :=
      le_min (by linarith) hc.2
    intro i
    rw [getD_set]
    split
    · rename_i hcond
      refine ⟨hv0, hv1, ?_⟩
      rw [← hcond.1]
      exact hvc
    · exact hinv i

theorem boost_fold_inv (baseline : List ℝ) (d2i : List (String × ℕ))
    (hbase : ∀ i : ℕ, 0 ≤ baseline.getD i 0 ∧ baseline.getD i 0 ≤ 1) :
    ∀ imps : List (String × ℝ), (∀ p ∈ imps, 0 ≤ p.2) →
      ∀ tv : List ℝ, vecInv baseline tv →
        vecInv baseline (imps.foldl (boost_step baseline d2i) tv) := by
  intro imps
  induction imps with
  | nil => exact fun _ tv hinv => hinv
  | cons p ps ih =>
    intro hf tv hinv
    simp only [List.foldl_cons]
    exact ih (fun q hq => hf q (List.mem_cons_of_mem _ hq)) _
      (boost_step_inv baseline d2i tv p hbase (hf p (List.mem_cons_self _ _)) hinv)

theorem zipWith_sub_map_sum_nonneg (l : List (String × ℕ)) (f g : String × ℕ → ℝ)
    (h : ∀ kv ∈ l, g kv ≤ f kv) :
    0 ≤ (List.zipWith (fun t c => t - c) (l.map f) (l.map g)).sum := by
  induction l with
  | nil => simp
  | cons kv l ih =>
    simp only [List.map_cons, List.zipWith_cons_cons, List.sum_cons]
    have h1 := h kv (List.mem_cons_self _ _)
    have h2 := ih fun q hq => h q (List.mem_cons_of_mem _ hq)
    linarith

theorem mem_bounds_of_getD_bounds (l : List ℝ)
    (h : ∀ i : ℕ, 0 ≤ l.getD i 0 ∧ l.getD i 0 ≤ 1) : ∀ x ∈ l, 0 ≤ x ∧ x ≤ 1 := by
  intro x hx
  obtain ⟨i, hi, rfl⟩ := List.mem_iff_getElem.mp hx
  have hb := h i
  rwa [List.getD_eq_getElem l 0 hi] at hb

theorem final_scalar_step_inv (baseline : List ℝ) (d2i : List (String × ℕ))
    (imps : List (String × ℝ)) (tv : List ℝ)
    (hbase : ∀ i : ℕ, 0 ≤ baseline.getD i 0 ∧ baseline.getD i 0 ≤ 1)
    (hinv : vecInv baseline tv) :
    ∀ i : ℕ, 0 ≤ (final_scalar_step baseline d2i imps tv).getD i 0 ∧
      (final_scalar_step baseline d2i imps tv).getD i 0 ≤ 1 := by
  unfold final_scalar_step
  cases hfs : pyDictGet d2i "final_scalar" with
  | none => exact fun i => ⟨(hinv i).1, (hinv i).2.1⟩
  | some fidx =>
    simp only []
    by_cases hemp : (d2i.filter fun kv =>
        imps.any (fun df => df.1 == kv.1) && kv.1 != "final_scalar").isEmpty
    · rw [if_pos hemp]
      exact fun i => ⟨(hinv i).1, (hinv i).2.1⟩
    · rw [if_neg hemp]
      have havg : 0 ≤ (List.zipWith (fun t c => t - c)
          ((d2i.filter fun kv => imps.any (fun df => df.1 == kv.1) && kv.1 != "final_scalar").map
            fun kv => tv.getD kv.2 0)
          ((d2i.filter fun kv => imps.any (fun df => df.1 == kv.1) && kv.1 != "final_scalar").map
            fun kv => baseline.getD kv.2 0)).sum /
          (((d2i.filter fun kv =>
            imps.any (fun df => df.1 == kv.1) && kv.1 != "final_scalar").length : ℕ) : ℝ) := by
        apply div_nonneg
        · exact zipWith_sub_map_sum_nonneg _ _ _ (fun kv _ => (hinv kv.2).2.2)
        · exact Nat.cast_nonneg _
      have hw0 : 0 ≤ min (baseline.getD fidx 0 + (List.zipWith (fun t c => t - c)
          ((d2i.filter fun kv => imps.any (fun df => df.1 == kv.1) && kv.1 != "final_scalar").map
            fun kv => tv.getD kv.2 0)
          ((d2i.filter fun kv => imps.any (fun df => df.1 == kv.1) && kv.1 != "final_scalar").map
            fun kv => baseline.getD kv.2 0)).sum /
          (((d2i.filter fun kv =>
            imps.any (fun df => df.1 == kv.1) && kv.1 != "final_scalar").length : ℕ) : ℝ)) (49/50) :=
        le_min (add_nonneg (hbase fidx).1 havg) (by norm_num)
      intro i
      rw [getD_set]
      split
      · refine ⟨hw0, ?_⟩
        exact le_trans (min_le_right _ _) (by norm_num)
      · exact ⟨(hinv i).1, (hinv i).2.1⟩

/-- C9 (amended): when no custom overrides are supplied, every value produced
by `_apply_goal_adjustments` from a baseline with values in [0,1] lies in
[0,1]: boosted dimensions are capped at 1.0 and the recomputed `final_scalar`
is capped at 0.98 and bounded below by the (non-negative) baseline value.
With custom overrides the overridden dimensions themselves are clamped to
[0,1], but the recomputed `final_scalar` can leave the interval (see the
counterexample). -/
theorem apply_goal_adjustments_bounds (dimensions : List String) (baseline : List ℝ)
    (goal_type : GoalType) (hb : ∀ x ∈ baseline, 0 ≤ x ∧ x ≤ 1) :
    (∀ i : ℕ, 0 ≤ (apply_goal_adjustments dimensions baseline goal_type none).getD i 0 ∧
      (apply_goal_adjustments dimensions baseline goal_type none).getD i 0 ≤ 1) ∧
    (∀ x ∈ apply_goal_adjustments dimensions baseline goal_type none, 0 ≤ x ∧ x ≤ 1) := by
  have hb' : ∀ i : ℕ, 0 ≤ baseline.getD i 0 ∧ baseline.getD i 0 ≤ 1 := by
    intro i
    by_cases hi : i < baseline.length
    · rw [List.getD_eq_getElem baseline 0 hi]
      exact hb _ (List.getElem_mem hi)
    · rw [List.getD_eq_default baseline 0 (by omega)]
      norm_num
  have hinv0 : vecInv baseline baseline := fun i => ⟨(hb' i).1, (hb' i).2, le_refl _⟩
  have hinv1 : vecInv baseline
      ((improvement_map goal_type).foldl (boost_step baseline (dimToIdx dimensions)) baseline) :=
    boost_fold_inv baseline (dimToIdx dimensions) hb' _ (improvement_map_nonneg goal_type)
      baseline hinv0
  have heq : apply_goal_adjustments dimensions baseline goal_type none =
      final_scalar_step baseline (dimToIdx dimensions) (improvement_map goal_type)
        ((improvement_map goal_type).foldl (boost_step baseline (dimToIdx dimensions))
          baseline) := rfl
  rw [heq]
  have hfin := final_scalar_step_inv baseline (dimToIdx dimensions) (improvement_map goal_type)
    _ hb' hinv1
  exact ⟨hfin, mem_bounds_of_getD_bounds _ hfin⟩

/-- Witness for the amended C9 theorem: a Strength goal over a one-dimension
baseline at 1/2. -/
theorem apply_goal_adjustments_bounds_witness :
    0 ≤ (apply_goal_adjustments ["combined_strength"] [1/2] GoalType.STRENGTH none).getD 0 0 ∧
    (apply_goal_adjustments ["combined_strength"] [1/2] GoalType.STRENGTH none).getD 0 0 ≤ 1 :=
  ((apply_goal_adjustments_bounds ["combined_strength"] [1/2] GoalType.STRENGTH
    (by intro x hx; rw [show x = 1/2 by simpa using hx]; norm_num)).1) 0

/-- C9 counterexample: dimensions `[combined_strength, final_scalar]`,
baseline `[1.0, 0.0]` (all values in [0,1]), Strength goal, and the custom
override `combined_strength = 0.0` (a value inside [0,1]).  The boost leaves
`combined_strength` at 1.0, the override then drops it to 0.0, and the
recomputed `final_scalar` becomes `0.0 + (0.0 - 1.0) = -1.0`: the returned
vector `[0, -1]` leaves [0,1]. -/
theorem apply_goal_adjustments_cex :
    apply_goal_adjustments ["combined_strength", "final_scalar"] [1, 0] GoalType.STRENGTH
      (some [("combined_strength", 0)]) = [0, -1] ∧
    ¬ (∀ x ∈ apply_goal_adjustments ["combined_strength", "final_scalar"] [1, 0]
        GoalType.STRENGTH (some [("combined_strength", 0)]), 0 ≤ x ∧ x ≤ 1) := by
  have hdi : dimToIdx ["combined_strength", "final_scalar"] =
      [("combined_strength", 0), ("final_scalar", 1)] := by rfl
  have h1 : pyDictGet [("combined_strength", 0), ("final_scalar", 1)] "combined_strength" =
      some 0 := by rfl
  have h2 : pyDictGet [("combined_strength", 0), ("final_scalar", 1)] "total_volume" =
      none := by rfl
  have h3 : pyDictGet [("combined_strength", 0), ("final_scalar", 1)] "intensity_avg" =
      none := by rfl
  have h4 : pyDictGet [("combined_strength", 0), ("final_scalar", 1)] "influence_scalar" =
      none := by rfl
  have h5 : pyDictGet [("combined_strength", 0), ("final_scalar", 1)] "final_scalar" =
      some 1 := by rfl
  have hmain : apply_goal_adjustments ["combined_strength", "final_scalar"] [1, 0]
      GoalType.STRENGTH (some [("combined_strength", 0)]) = [0, -1] := by
    simp only [apply_goal_adjustments, improvement_map, List.foldl, boost_step, custom_step,
      final_scalar_step, hdi, h1, h2, h3, h4, h5]
    norm_num
    simp +decide [List.filter]
    norm_num
  refine ⟨hmain, ?_⟩
  intro hall
  have := hall (-1) (by rw [hmain]; simp)
  linarith [this.1]

/-- 0.25 ** 0.7 lies strictly between 0.3785 and 0.379. -/
theorem rpow_quarter_bounds :
    (0.3785 : ℝ) < (1/4:ℝ) ^ (0.7:ℝ) ∧ (1/4:ℝ) ^ (0.7:ℝ) < 0.379 := by
  have key : ((1/4:ℝ) ^ (0.7:ℝ)) ^ (10:ℕ) = (1/4:ℝ) ^ (7:ℕ) := by
    rw [← Real.rpow_natCast ((1/4:ℝ) ^ (0.7:ℝ)) 10,
      ← Real.rpow_mul (by norm_num : (0:ℝ) ≤ 1/4),
      show (0.7:ℝ) * ((10:ℕ):ℝ) = ((7:ℕ):ℝ) by norm_num, Real.rpow_natCast]
  have hpos : (0:ℝ) < (1/4:ℝ) ^ (0.7:ℝ) := Real.rpow_pos_of_pos (by norm_num) _
  constructor
  · apply lt_of_pow_lt_pow_left₀ 10 (le_of_lt hpos)
    rw [key]
    norm_num
  · apply lt_of_pow_lt_pow_left₀ 10 (by norm_num)
    rw [key]
    norm_num

/-- `round(0.25 ** 0.7, 3)` is exactly 0.379. -/
theorem pyRound_rpow_quarter : pyRound ((1/4:ℝ) ^ (0.7:ℝ)) 3 = 379/1000 := by
  obtain ⟨hl, hu⟩ := rpow_quarter_bounds
  have h1000 : ((10:ℝ) ^ (3:ℕ)) = 1000 := by norm_num
  have hy1 : (757/2 : ℝ) < (1/4:ℝ) ^ (0.7:ℝ) * 10 ^ 3 := by
    rw [h1000]
    nlinarith
  have hy2 : (1/4:ℝ) ^ (0.7:ℝ) * 10 ^ 3 < 379 := by
    rw [h1000]
    nlinarith
  have hfl : ⌊(1/4:ℝ) ^ (0.7:ℝ) * 10 ^ 3⌋ = 378 := by
    rw [Int.floor_eq_iff]
    constructor <;> push_cast <;> linarith
  have hfr : Int.fract ((1/4:ℝ) ^ (0.7:ℝ) * 10 ^ 3) ≠ 1/2 := by
    rw [Int.fract, hfl]
    push_cast
    intro hEq
    linarith
  have hrhe : roundHalfEven ((1/4:ℝ) ^ (0.7:ℝ) * 10 ^ 3) = 379 := by
    unfold roundHalfEven
    rw [if_neg hfr, Int.floor_eq_iff]
    constructor <;> push_cast <;> linarith
  unfold pyRound
  rw [hrhe, h1000]
  norm_num

/-- C3 (amended): for a strictly future target date,
`_calculate_milestone_vectors` yields exactly three milestones at 25/50/75
percent, dated `⌊total_days * p⌋` days after creation, whose vectors are the
interpolation `baseline + (target - baseline) * p ** 0.7` rounded
componentwise to 3 decimals (the rounding is what the original claim
omitted).  In the Strength-goal scenario with baseline
`combined_strength = 0.3` and a target 90 days out, the generated target
value exceeds 0.3, is at most 1.0, and the milestones fall 22, 45 and 67 days
out. -/
theorem calculate_milestone_vectors_spec :
    (∀ (dims : List String) (b t : List ℝ) (today tdate : ℤ), today < tdate →
      (calculate_milestone_vectors dims b t today tdate).length = 3 ∧
      (calculate_milestone_vectors dims b t today tdate).map Milestone.percent =
        [25, 50, 75] ∧
      (calculate_milestone_vectors dims b t today tdate).map Milestone.date =
        [today + ⌊((tdate - today : ℤ) : ℝ) * (1/4)⌋,
          today + ⌊((tdate - today : ℤ) : ℝ) * (1/2)⌋,
          today + ⌊((tdate - today : ℤ) : ℝ) * (3/4)⌋] ∧
      (calculate_milestone_vectors dims b t today tdate).map Milestone.vector =
        [List.zipWith (fun bv tv => pyRound (bv + (tv - bv) * (1/4:ℝ) ^ (0.7:ℝ)) 3) b t,
          List.zipWith (fun bv tv => pyRound (bv + (tv - bv) * (1/2:ℝ) ^ (0.7:ℝ)) 3) b t,
          List.zipWith (fun bv tv => pyRound (bv + (tv - bv) * (3/4:ℝ) ^ (0.7:ℝ)) 3) b t]) ∧
    ((3:ℝ)/10 <
        (apply_goal_adjustments ["combined_strength"] [3/10] GoalType.STRENGTH none).getD 0 0 ∧
      (apply_goal_adjustments ["combined_strength"] [3/10] GoalType.STRENGTH none).getD 0 0
        ≤ 1 ∧
      (calculate_milestone_vectors ["combined_strength"] [3/10]
        (apply_goal_adjustments ["combined_strength"] [3/10] GoalType.STRENGTH none)
        0 90).map Milestone.date = [22, 45, 67]) := by
  constructor
  · intro dims b t today tdate h
    unfold calculate_milestone_vectors
    rw [if_neg (by omega : ¬ tdate - today ≤ 0)]
    refine ⟨by simp, ?_, ?_, ?_⟩
    · simp only [List.map_cons, List.map_nil]
      norm_num
    · simp only [List.map_cons, List.map_nil]
    · simp only [List.map_cons, List.map_nil]
  · have htgt : apply_goal_adjustments ["combined_strength"] [3/10] GoalType.STRENGTH none =
        [min ((3:ℝ)/10 + (1 - 3/10) * (1 - Real.exp (-(3/10) * 2))) 1] := by
      have hdi : dimToIdx ["combined_strength"] = [("combined_strength", 0)] := by rfl
      have h1 : pyDictGet [("combined_strength", 0)] "combined_strength" = some 0 := by rfl
      have h2 : pyDictGet [("combined_strength", 0)] "total_volume" = none := by rfl
      have h3 : pyDictGet [("combined_strength", 0)] "intensity_avg" = none := by rfl
      have h4 : pyDictGet [("combined_strength", 0)] "influence_scalar" = none := by rfl
      have h5 : pyDictGet [("combined_strength", 0)] "final_scalar" = none := by rfl
      simp only [apply_goal_adjustments, improvement_map, List.foldl, boost_step, custom_step,
        final_scalar_step, hdi, h1, h2, h3, h4, h5]
      norm_num
    have he1 : Real.exp (-(3:ℝ)/10 * 2) < 1 := Real.exp_lt_one_iff.mpr (by norm_num)
    have he0 : 0 < Real.exp (-(3:ℝ)/10 * 2) := Real.exp_pos _
    rw [htgt]
    refine ⟨?_, ?_, ?_⟩
    · simp only [List.getD_cons_zero]
      refine lt_min ?_ (by norm_num)
      nlinarith
    · simp only [List.getD_cons_zero]
      exact min_le_right _ _
    · unfold calculate_milestone_vectors
      rw [if_neg (by norm_num : ¬ (90:ℤ) - 0 ≤ 0)]
      simp only [List.map_cons, List.map_nil]
      norm_num

/-- Witness for the amended C3 theorem: three milestones for a 90-day goal. -/
theorem calculate_milestone_vectors_spec_witness :
    (calculate_milestone_vectors ["d"] [(0:ℝ)] [1] 0 90).length = 3 :=
  (calculate_milestone_vectors_spec.1 ["d"] [0] [1] 0 90 (by norm_num)).1

/-- C3 counterexample: for baseline [0], target [1] and a 90-day horizon, the
first milestone's vector entry is the stored rounded value 0.379, which
differs from the exact interpolation value `0 + (1 - 0) * 0.25 ** 0.7`. -/
theorem calculate_milestone_vectors_cex :
    ((calculate_milestone_vectors ["d"] [0] [1] 0 90).map Milestone.vector).head? =
      some [(379:ℝ)/1000] ∧
    (379:ℝ)/1000 ≠ (0:ℝ) + ((1:ℝ) - 0) * (1/4:ℝ) ^ (0.7:ℝ) := by
  constructor
  · simp only [calculate_milestone_vectors]
    rw [if_neg (by norm_num : ¬ (90:ℤ) - 0 ≤ 0)]
    simp only [List.map_cons, List.map_nil, List.head?_cons, List.zipWith_cons_cons,
      List.zipWith_nil_right, List.zipWith_nil_left]
    rw [show ((0:ℝ) + ((1:ℝ) - 0) * (1/4:ℝ) ^ (0.7:ℝ)) = (1/4:ℝ) ^ (0.7:ℝ) from by ring]
    rw [pyRound_rpow_quarter]
  · intro hEq
    have hx : (0:ℝ) + ((1:ℝ) - 0) * (1/4:ℝ) ^ (0.7:ℝ) = (1/4:ℝ) ^ (0.7:ℝ) := by ring
    rw [hx] at hEq
    have := rpow_quarter_bounds.2
    rw [← hEq] at this
    norm_num at this
